import Mathlib

/-!
The 3Flatline vulnerability scanner: the frontend controller (`frontend/js/app.js`).

A shallow embedding of the client-side controller: the application state
store, the asynchronous operations against the REST backend, the scan
workflow with its progress indicator, and the view helpers.

Strings are sequences of UTF-16 code units, as in the host language, so that
`length`, `substring` and `includes` count in the same units as the source.
-/

namespace Flatline

/-! ## Strings -/

/-- One UTF-16 code unit. -/
abbrev CodeUnit := Fin 65536

/-- A string of the host language: a finite sequence of UTF-16 code units. -/
abbrev JSString := List CodeUnit

/-- UTF-16 encoding of one Unicode scalar value. -/
def utf16 (c : Char) : List CodeUnit :=
  if c.toNat < 65536 then [Fin.ofNat c.toNat]
  else [Fin.ofNat (55296 + (c.toNat - 65536) / 1024),
        Fin.ofNat (56320 + (c.toNat - 65536) % 1024)]

/-- A string literal of the source, as a sequence of code units. -/
def js (s : String) : JSString :=
  s.toList.foldr (fun c acc => utf16 c ++ acc) []

/-! ## Numbers

The numbers of the model are the safe integers, the integers of magnitude at
most 2^53 - 1: a double holds each of them exactly, and the host prints them
in plain decimal. Fractions and larger magnitudes need floating point and are
outside the model. -/

/-- A number of the host that is a safe integer. -/
abbrev JSNumber := { n : Int // -9007199254740991 ≤ n ∧ n ≤ 9007199254740991 }

instance : OfNat JSNumber 0 := ⟨⟨0, by decide⟩⟩

instance : OfNat JSNumber 2 := ⟨⟨2, by decide⟩⟩

instance : OfNat JSNumber 10 := ⟨⟨10, by decide⟩⟩

instance : OfNat JSNumber 100 := ⟨⟨100, by decide⟩⟩

/-- An array of the host: its length is at most 2^32 - 1. -/
abbrev JSArray (α : Type) := { xs : List α // xs.length ≤ 4294967295 }

/-- The `length` of an array, as a number. -/
def JSArray.size {α : Type} (xs : JSArray α) : JSNumber :=
  ⟨(xs.val.length : Int), by have h := xs.property; omega⟩

/-- Code unit of the decimal digit `d`. -/
def digitUnit (d : Nat) : CodeUnit := Fin.ofNat (48 + d)

/-- Decimal digits of `n`, most significant first; `fuel` bounds the number of
digits. -/
def natDigits : Nat → Nat → JSString
  | 0, _ => []
  | fuel + 1, n =>
    if n < 10 then [digitUnit n]
    else natDigits fuel (n / 10) ++ [digitUnit (n % 10)]

/-- Number-to-string conversion of the host on a safe integer: the decimal
digits of its magnitude, after a minus sign when it is negative. -/
def numberToString (x : JSNumber) : JSString :=
  if x.val < 0 then 45 :: natDigits (x.val.natAbs + 1) x.val.natAbs
  else natDigits (x.val.natAbs + 1) x.val.natAbs

/-- Value of a string of decimal digits; `none` when a unit is not a digit. -/
def readDigits (s : JSString) : Option Nat :=
  s.foldl
    (fun acc u =>
      match acc with
      | some a => if 48 ≤ u.val ∧ u.val ≤ 57 then some (a * 10 + (u.val - 48)) else none
      | none => none)
    (some 0)

/-- The integer that a decimal numeral denotes: digits, after an optional minus
sign. Used to say which number a displayed text stands for. -/
def readDecimal (s : JSString) : Option Int :=
  match s with
  | [] => none
  | u :: rest =>
    if u.val = 45 then
      match rest with
      | [] => none
      | _ :: _ =>
        match readDigits rest with
        | some n => some (- Int.ofNat n)
        | none => none
    else
      match readDigits (u :: rest) with
      | some n => some (Int.ofNat n)
      | none => none

/-! ## `truncateText` (app.js, lines 427-431) -/

/-- Embedding of `truncateText(text, maxLength)` for a string `text` and a
non-negative integer `maxLength`:

    if (!text) return "";
    if (text.length <= maxLength) return text;
    return text.substring(0, maxLength) + "...";

A string is falsy exactly when it is empty. -/
def truncateText (text : JSString) (maxLength : Nat) : JSString :=
  if text.isEmpty then js ""
  else if text.length ≤ maxLength then text
  else text.take maxLength ++ js "..."

/-! ## Data model

Payloads of the REST backend, with the fields the controller reads. A field
that a JSON object lacks reads as `undefined`; it is `none` here. -/

/-- Response of `GET /api/statistics`: the six counters read by
`updateStatistics`. -/
structure Statistics where
  total : Option JSNumber := none
  pending : Option JSNumber := none
  processing : Option JSNumber := none
  completed : Option JSNumber := none
  failed : Option JSNumber := none
  vulnerabilities : Option JSNumber := none
  deriving DecidableEq, Repr

/-- One vulnerability finding, with the fields read by the view. -/
structure Finding where
  GUID : Option JSString := none
  FileName : Option JSString := none
  Extension : Option JSString := none
  VulnClass : Option JSString := none
  Description : Option JSString := none
  ChunkScanned : Option JSString := none
  Fix : Option JSString := none
  Date : Option JSString := none
  Time : Option JSString := none
  deriving DecidableEq, Repr

/-- Response of `POST /api/scan/directory`. -/
structure ScanDirectoryResult where
  scannedFiles : Option (JSArray JSString) := none
  deriving DecidableEq, Repr

/-- Response of `DELETE /api/vulnerability`. -/
structure DeleteResult where
  success : Bool
  deriving DecidableEq, Repr

/-- The store `appState` (app.js, lines 7-13). -/
structure AppState where
  files : List JSString := []
  selectedFile : Option JSString := none
  vulnerabilities : List Finding := []
  statistics : Statistics := {}
  currentVulnerability : Option Finding := none
  deriving DecidableEq, Repr

/-- Value of `s || d` for an optional string `s` and a string `d`: a missing
or empty string is falsy. -/
def strOr (s : Option JSString) (d : JSString) : JSString :=
  match s with
  | some t => if t.isEmpty then d else t
  | none => d

/-- Value of `n || 0` for an optional number `n`: a missing number and zero
are falsy. -/
def numOrZero (n : Option JSNumber) : JSNumber :=
  match n with
  | some k => if k.val = 0 then 0 else k
  | none => 0

/-! ## The view (the DOM elements of `elements`, lines 16-56) -/

/-- One `li` of `#files-list`. `file` is the file captured by the click
handler; the placeholder entry has no handler. -/
structure FileItem where
  textContent : JSString
  display : JSString := []
  active : Bool := false
  file : Option JSString := none
  deriving DecidableEq, Repr

/-- One child of `#vulnerabilities-container`: the placeholder, or a card with
the four interpolated texts and the GUID captured by its click handler. -/
inductive Card where
  | placeholder
  | card (vulnClass description date time : JSString) (guid : Option JSString)
  deriving DecidableEq, Repr

/-- The part of the document the controller writes. -/
structure View where
  totalTasks : JSString := []
  pendingTasks : JSString := []
  processingTasks : JSString := []
  completedTasks : JSString := []
  failedTasks : JSString := []
  vulnerabilitiesCount : JSString := []
  scanProgressHidden : Bool := true
  progressBarFillWidth : JSString := []
  scanStatusText : JSString := []
  filesList : List FileItem := []
  noFileSelectedHidden : Bool := false
  fileVulnerabilitiesHidden : Bool := true
  selectedFileName : JSString := []
  vulnerabilitiesContainer : List Card := []
  modalDisplay : JSString := js "none"
  modalFilename : JSString := []
  modalFiletype : JSString := []
  modalVulnClass : JSString := []
  modalDescription : JSString := []
  modalChunk : JSString := []
  modalFix : JSString := []
  deriving DecidableEq, Repr

/-- Embedding of `updateStatistics(stats)` (lines 304-311). Assigning a number
to `textContent` stores its decimal representation. -/
def updateStatistics (stats : Statistics) (v : View) : View :=
  { v with
    totalTasks := numberToString (numOrZero stats.total)
    pendingTasks := numberToString (numOrZero stats.pending)
    processingTasks := numberToString (numOrZero stats.processing)
    completedTasks := numberToString (numOrZero stats.completed)
    failedTasks := numberToString (numOrZero stats.failed)
    vulnerabilitiesCount := numberToString (numOrZero stats.vulnerabilities) }

/-- Embedding of `renderFilesList(files)` (lines 314-339). -/
def renderFilesList (files : List JSString) (v : View) : View :=
  if files.length = 0 then
    { v with filesList := [{ textContent := js "No files scanned yet" }] }
  else
    { v with filesList := files.map (fun file => { textContent := file, file := some file }) }

/-- The card built for one finding in `renderVulnerabilities` (lines 360-375). -/
def renderCard (vuln : Finding) : Card :=
  Card.card
    (strOr vuln.VulnClass (js "Unknown Vulnerability"))
    (truncateText (strOr vuln.Description (js "No description available")) 100)
    (strOr vuln.Date (js ""))
    (strOr vuln.Time (js ""))
    vuln.GUID

/-- Embedding of `renderVulnerabilities(vulnerabilities, fileName)` (lines 342-377). -/
def renderVulnerabilities (vulnerabilities : List Finding) (fileName : JSString) (v : View) : View :=
  let v1 := { v with
    noFileSelectedHidden := true
    fileVulnerabilitiesHidden := false
    selectedFileName := fileName
    vulnerabilitiesContainer := [] }
  if vulnerabilities.length = 0 then
    { v1 with vulnerabilitiesContainer := [Card.placeholder] }
  else
    { v1 with vulnerabilitiesContainer := vulnerabilities.map renderCard }

/-- Embedding of `showVulnerabilityModal(vulnerability)` (lines 380-394). -/
def showVulnerabilityModal (vulnerability : Finding) (v : View) : View :=
  { v with
    modalFilename := strOr vulnerability.FileName (js "Unknown File")
    modalFiletype := strOr vulnerability.Extension (js "Unknown Type")
    modalVulnClass := strOr vulnerability.VulnClass (js "Unknown Vulnerability")
    modalDescription := strOr vulnerability.Description (js "No description available")
    modalChunk := strOr vulnerability.ChunkScanned (js "No code available")
    modalFix := strOr vulnerability.Fix (js "No fix available")
    modalDisplay := js "block" }

/-- Search of `searchString` in `s` from position 0, as `String.prototype.includes`
does it: some position `i` with `i + searchString.length <= s.length` at which
the code units of `s` are those of `searchString`. -/
def includes (s searchString : JSString) : Bool :=
  (List.range (s.length + 1)).any
    (fun i => decide (i + searchString.length ≤ s.length) &&
      decide ((s.drop i).take searchString.length = searchString))

/-- Embedding of `filterFiles(searchTerm)` (lines 397-409) on the list of `li`
elements. `toLowerCase` is the built-in `String.prototype.toLowerCase` of the
host, which the source does not define. -/
def filterFiles (toLowerCase : JSString → JSString) (searchTerm : JSString)
    (items : List FileItem) : List FileItem :=
  let searchTerm := toLowerCase searchTerm
  items.map (fun item =>
    let text := toLowerCase item.textContent
    if includes text searchTerm then { item with display := js "" }
    else { item with display := js "none" })

/-- Embedding of `showProgress(show)` (lines 412-418): the class `hidden` of
`#scan-progress`. -/
def showProgress (shown : Bool) (v : View) : View :=
  if shown then { v with scanProgressHidden := false }
  else { v with scanProgressHidden := true }

/-- Embedding of `updateProgress(percent, text)` (lines 421-424). -/
def updateProgress (percent : JSNumber) (text : JSString) (v : View) : View :=
  { v with
    progressBarFillWidth := numberToString percent ++ js "%"
    scanStatusText := text }

/-! ## Requests, responses, effects and the world -/

/-- A request in flight. The constructor fixes which operation is suspended on
it and the arguments that operation has captured. -/
inductive Request where
  | statistics
  | files
  | vulnerabilities (fileName : JSString)
  | vulnerability (guid : Option JSString)
  | scanFile (filePath : JSString)
  | scanDirectory (directoryPath : JSString)
  | deleteVulnerability (guid : Option JSString)
  deriving DecidableEq, Repr

/-- How the two awaits of an operation (`await fetch(..)`, then
`await response.json()`) settle: the first is rejected (`networkError`), the
second is rejected (`parseError`), or both are fulfilled with the parsed body
(`ok`). `fetch` fulfils on every HTTP status and the source never reads
`response.ok` or `response.status`, so a response with a non-2xx status whose
body parses is `ok` as well. No statement of the source runs between the two
awaits. -/
inductive Outcome (α : Type) where
  | networkError
  | parseError
  | ok (data : α)
  deriving DecidableEq, Repr

/-- A settled response, by endpoint. -/
inductive Response where
  | statistics (o : Outcome Statistics)
  | files (o : Outcome (List JSString))
  | vulnerabilities (o : Outcome (List Finding))
  | vulnerability (o : Outcome Finding)
  | scanFile (o : Outcome Unit)
  | scanDirectory (o : Outcome ScanDirectoryResult)
  | deleteVulnerability (o : Outcome DeleteResult)
  deriving DecidableEq, Repr

/-- The two callbacks handed to `setTimeout(callback, 1000)`, with what they capture. -/
inductive TimerCallback where
  | scanFileDone
  | scanDirectoryDone (scannedCount : JSNumber)
  deriving DecidableEq, Repr

/-- What the controller does to its host besides writing the view. `reload` is
`location.reload(true)`: the reloaded page starts again from `World.init`;
what the old page still runs until then is the rest of the same run. -/
inductive Effect where
  | consoleError (label : JSString)
  | alert (message : JSString)
  | confirm (message : JSString)
  | reload
  | navigate (url : JSString)
  deriving DecidableEq, Repr

/-- A thrown value: the rejection of an awaited promise, or the `URIError` of
`encodeURIComponent`. -/
inductive JSError where
  | rejected
  | uriError
  deriving DecidableEq, Repr

/-- The store, the view, the requests in flight, the timers set, the effects
so far (oldest first) and whether `initApp` has run. -/
structure World where
  appState : AppState := {}
  view : View := {}
  pending : List (Nat × Request) := []
  timers : List (Nat × TimerCallback) := []
  nextId : Nat := 0
  effects : List Effect := []
  started : Bool := false
  deriving DecidableEq, Repr

/-- The page as loaded, before `DOMContentLoaded`: the initial store of
lines 7-13 and the document `v`. -/
def World.init (v : View) : World :=
  { view := v }

/-- A run of source statements: it may throw, and what it wrote before
throwing stays written. -/
def JS (α : Type) : Type := World → Except JSError α × World

/-- Run `m` from the world `w`. -/
def JS.run {α : Type} (m : JS α) (w : World) : Except JSError α × World := m w

instance : Monad JS where
  pure a := fun w => (Except.ok a, w)
  bind m f := fun w =>
    match m w with
    | (Except.ok a, w1) => f a w1
    | (Except.error e, w1) => (Except.error e, w1)

/-- Apply `f` to the view. -/
def modifyView (f : View → View) : JS Unit :=
  fun w => (Except.ok (), { w with view := f w.view })

/-- Apply `f` to `appState`. -/
def modifyState (f : AppState → AppState) : JS Unit :=
  fun w => (Except.ok (), { w with appState := f w.appState })

/-- Read `appState`. -/
def getState : JS AppState :=
  fun w => (Except.ok w.appState, w)

/-- Perform one host effect. -/
def emit (e : Effect) : JS Unit :=
  fun w => (Except.ok (), { w with effects := w.effects ++ [e] })

/-- Send a request: `fetch(..)` returns a promise at once. -/
def fetch (r : Request) : JS Unit :=
  fun w => (Except.ok (), { w with pending := w.pending ++ [(w.nextId, r)], nextId := w.nextId + 1 })

/-- Arm a timer: `setTimeout(callback, 1000)`. -/
def setTimeout (cb : TimerCallback) : JS Unit :=
  fun w => (Except.ok (), { w with timers := w.timers ++ [(w.nextId, cb)], nextId := w.nextId + 1 })

/-- Resume after the awaits: a rejection is thrown at the `await`. -/
def await {α : Type} (o : Outcome α) : JS α :=
  match o with
  | Outcome.ok data => pure data
  | Outcome.networkError => fun w => (Except.error JSError.rejected, w)
  | Outcome.parseError => fun w => (Except.error JSError.rejected, w)

/-- A high surrogate: a code unit from 0xD800 to 0xDBFF. -/
def isHighSurrogate (u : CodeUnit) : Bool :=
  decide (55296 ≤ u.val) && decide (u.val ≤ 56319)

/-- A low surrogate: a code unit from 0xDC00 to 0xDFFF. -/
def isLowSurrogate (u : CodeUnit) : Bool :=
  decide (56320 ≤ u.val) && decide (u.val ≤ 57343)

/-- No lone surrogate: every high surrogate is followed by a low one, and every
low surrogate follows a high one (`String.prototype.isWellFormed`). -/
def isWellFormed : JSString → Bool
  | [] => true
  | u :: rest =>
    if isHighSurrogate u then
      match rest with
      | v :: rest2 => isLowSurrogate v && isWellFormed rest2
      | [] => false
    else if isLowSurrogate u then false
    else isWellFormed rest

/-- The call `encodeURIComponent(s)`: it throws a `URIError` when `s` has a lone
surrogate. The encoded text goes into the URL, of which the model keeps the
file name only. -/
def encodeURIComponent (s : JSString) : JS Unit :=
  fun w => if isWellFormed s then (Except.ok (), w) else (Except.error JSError.uriError, w)

/-- The statement `try { body } catch (error) { handler }`. -/
def tryCatch (body : JS Unit) (handler : JSError → JS Unit) : JS Unit :=
  fun w =>
    match body w with
    | (Except.ok a, w1) => (Except.ok a, w1)
    | (Except.error e, w1) => handler e w1

/-! ## The operations (lines 129-299)

An `async` function is embedded as two definitions: the call, which runs to
the first `await` and leaves a request in flight, and the definition named `Resumed`, the rest of
the body, run when the awaited response has settled. The `try`/`catch` of
the source encloses both; before the first `await` only the
`encodeURIComponent` of `fetchVulnerabilities` can throw. -/

/-- The call `fetchStatistics()` (line 131). -/
def fetchStatistics : JS Unit :=
  fetch Request.statistics

/-- Rest of `fetchStatistics` (lines 132-138). -/
def fetchStatisticsResumed (o : Outcome Statistics) : JS Unit :=
  tryCatch
    (do
      let data ← await o
      modifyState (fun s => { s with statistics := data })
      modifyView (updateStatistics data))
    (fun _ => emit (Effect.consoleError (js "Error fetching statistics:")))

/-- The call `fetchFiles()` (line 144). -/
def fetchFiles : JS Unit :=
  fetch Request.files

/-- Rest of `fetchFiles` (lines 145-151). -/
def fetchFilesResumed (o : Outcome (List JSString)) : JS Unit :=
  tryCatch
    (do
      let data ← await o
      modifyState (fun s => { s with files := data })
      modifyView (renderFilesList data))
    (fun _ => emit (Effect.consoleError (js "Error fetching files:")))

/-- The call `fetchVulnerabilities(fileName)` (lines 156-159, with the `catch`
of lines 166-168): when `encodeURIComponent` throws, the error is logged and
no request is sent. -/
def fetchVulnerabilities (fileName : JSString) : JS Unit :=
  tryCatch
    (do
      encodeURIComponent fileName
      fetch (Request.vulnerabilities fileName))
    (fun _ => emit (Effect.consoleError (js "Error fetching vulnerabilities:")))

/-- Rest of `fetchVulnerabilities` (lines 160-168). -/
def fetchVulnerabilitiesResumed (fileName : JSString) (o : Outcome (List Finding)) : JS Unit :=
  tryCatch
    (do
      let data ← await o
      modifyState (fun s => { s with vulnerabilities := data })
      modifyState (fun s => { s with selectedFile := some fileName })
      modifyView (renderVulnerabilities data fileName))
    (fun _ => emit (Effect.consoleError (js "Error fetching vulnerabilities:")))

/-- The call `fetchVulnerabilityReport(guid)` (line 174). -/
def fetchVulnerabilityReport (guid : Option JSString) : JS Unit :=
  fetch (Request.vulnerability guid)

/-- Rest of `fetchVulnerabilityReport` (lines 175-181). -/
def fetchVulnerabilityReportResumed (o : Outcome Finding) : JS Unit :=
  tryCatch
    (do
      let data ← await o
      modifyState (fun s => { s with currentVulnerability := some data })
      modifyView (showVulnerabilityModal data))
    (fun _ => emit (Effect.consoleError (js "Error fetching vulnerability report:")))

/-- The call `scanFile(filePath)` (lines 187-196). -/
def scanFile (filePath : JSString) : JS Unit := do
  modifyView (showProgress true)
  modifyView (updateProgress 10 (js "Starting scan..."))
  fetch (Request.scanFile filePath)

/-- Rest of `scanFile` (lines 198-217). -/
def scanFileResumed (o : Outcome Unit) : JS Unit :=
  tryCatch
    (do
      let _data ← await o
      modifyView (updateProgress 100 (js "Scan complete!"))
      setTimeout TimerCallback.scanFileDone)
    (fun _ => do
      emit (Effect.consoleError (js "Error scanning file:"))
      modifyView (updateProgress 0 (js "Scan failed"))
      modifyView (showProgress false)
      emit (Effect.alert
        (js "Error scanning file. Please check that the file exists and is accessible.")))

/-- The call `scanDirectory(directoryPath)` (lines 223-232). -/
def scanDirectory (directoryPath : JSString) : JS Unit := do
  modifyView (showProgress true)
  modifyView (updateProgress 10 (js "Starting directory scan..."))
  fetch (Request.scanDirectory directoryPath)

/-- The value of `data.scannedFiles ? data.scannedFiles.length : 0` (line 238):
an array, also an empty one, is truthy; a missing field is falsy. -/
def scannedCountOf (data : ScanDirectoryResult) : JSNumber :=
  match data.scannedFiles with
  | some scannedFiles => scannedFiles.size
  | none => 0

/-- Rest of `scanDirectory` (lines 234-255). -/
def scanDirectoryResumed (o : Outcome ScanDirectoryResult) : JS Unit :=
  tryCatch
    (do
      let data ← await o
      modifyView (updateProgress 100 (js "Directory scan complete!"))
      let scannedCount := scannedCountOf data
      setTimeout (TimerCallback.scanDirectoryDone scannedCount))
    (fun _ => do
      emit (Effect.consoleError (js "Error scanning directory:"))
      modifyView (updateProgress 100 (js "Working"))
      fetchStatistics
      emit Effect.reload)

/-- The callbacks of the two `setTimeout` calls (lines 202-209 and 241-248). -/
def runTimer (cb : TimerCallback) : JS Unit :=
  match cb with
  | TimerCallback.scanFileDone => do
      fetchStatistics
      fetchFiles
      modifyView (showProgress false)
      emit (Effect.alert (js "File scan completed successfully."))
  | TimerCallback.scanDirectoryDone scannedCount => do
      fetchStatistics
      fetchFiles
      modifyView (showProgress false)
      emit (Effect.alert
        (js "Directory scan completed. Scanned " ++ numberToString scannedCount ++ js " files."))

/-- The call `deleteVulnerabilityReport(guid)` (lines 260-269); `confirmed` is
what the user answers to the `confirm` dialog. -/
def deleteVulnerabilityReport (guid : Option JSString) (confirmed : Bool) : JS Unit := do
  emit (Effect.confirm (js "Are you sure you want to delete this vulnerability report?"))
  if !confirmed then
    pure ()
  else
    fetch (Request.deleteVulnerability guid)

/-- Rest of `deleteVulnerabilityReport` (lines 271-287). -/
def deleteVulnerabilityReportResumed (o : Outcome DeleteResult) : JS Unit :=
  tryCatch
    (do
      let data ← await o
      if data.success then
        modifyView (fun v => { v with modalDisplay := js "none" })
        let s ← getState
        match s.selectedFile with
        | some selectedFile =>
            if !selectedFile.isEmpty then fetchVulnerabilities selectedFile else pure ()
        | none => pure ()
        fetchStatistics
      else
        pure ())
    (fun _ => do
      emit (Effect.consoleError (js "Error deleting vulnerability report:"))
      emit (Effect.alert (js "Error deleting vulnerability report.")))

/-- Embedding of `exportVulnerabilityReportsAsMarkdown()` (lines 291-299). -/
def exportVulnerabilityReportsAsMarkdown : JS Unit :=
  tryCatch
    (emit (Effect.navigate (js "/api/export/markdown")))
    (fun _ => do
      emit (Effect.consoleError (js "Error exporting vulnerability reports:"))
      emit (Effect.alert (js "Error exporting vulnerability reports.")))

/-- Embedding of `initApp()` (lines 70-80): the listeners and the 10 s interval
are registered from here on. -/
def initApp : JS Unit := do
  fetchStatistics
  fetchFiles
  fun w => (Except.ok (), { w with started := true })

/-! ## Events and the step function -/

/-- The events for which `setupEventListeners` (lines 83-124) registers a
listener, with the input each listener reads. -/
inductive UIEvent where
  | submitScanFile (value : JSString)
  | submitScanDirectory (value : JSString)
  | searchInput (value : JSString)
  | clickCloseModal
  | clickWindow (onModal : Bool)
  | clickDeleteVulnerability (confirmed : Bool)
  | clickExportMarkdown
  deriving DecidableEq, Repr

/-- A direct call of one operation of the controller. -/
inductive Call where
  | fetchStatistics
  | fetchFiles
  | fetchVulnerabilities (fileName : JSString)
  | fetchVulnerabilityReport (guid : Option JSString)
  | scanFile (filePath : JSString)
  | scanDirectory (directoryPath : JSString)
  | deleteVulnerabilityReport (guid : Option JSString) (confirmed : Bool)
  deriving DecidableEq, Repr

/-- Everything that can make the controller run: the page load, the polling
interval, a user action, a click on a rendered file or card, a direct call, a
response that settles, a timer that fires. -/
inductive Event where
  | domContentLoaded
  | interval
  | ui (e : UIEvent)
  | clickFile (index : Nat)
  | clickCard (index : Nat)
  | call (c : Call)
  | response (id : Nat) (r : Response)
  | timeout (id : Nat)
  deriving DecidableEq, Repr

/-- The listeners of `setupEventListeners` (lines 83-124). -/
def setupEventListeners (toLowerCase : JSString → JSString) (e : UIEvent) : JS Unit :=
  match e with
  | UIEvent.submitScanFile value => scanFile value
  | UIEvent.submitScanDirectory value => scanDirectory value
  | UIEvent.searchInput value =>
      modifyView (fun v => { v with filesList := filterFiles toLowerCase value v.filesList })
  | UIEvent.clickCloseModal =>
      modifyView (fun v => { v with modalDisplay := js "none" })
  | UIEvent.clickWindow onModal =>
      if onModal then modifyView (fun v => { v with modalDisplay := js "none" }) else pure ()
  | UIEvent.clickDeleteVulnerability confirmed => do
      let s ← getState
      match s.currentVulnerability with
      | some currentVulnerability => deleteVulnerabilityReport currentVulnerability.GUID confirmed
      | none => pure ()
  | UIEvent.clickExportMarkdown => exportVulnerabilityReportsAsMarkdown

/-- The click listener of the `index`-th file entry (lines 327-336). -/
def clickFile (index : Nat) : JS Unit :=
  fun w =>
    match w.view.filesList.get? index with
    | some li =>
        match li.file with
        | some file =>
            (do
              modifyView (fun v =>
                let cleared := v.filesList.map (fun el => { el with active := false })
                { v with filesList := List.modify (fun el => { el with active := true }) index cleared })
              fetchVulnerabilities file : JS Unit) w
        | none => (Except.ok (), w)
    | none => (Except.ok (), w)

/-- The click listener of the `index`-th card (lines 371-373). -/
def clickCard (index : Nat) : JS Unit :=
  fun w =>
    match w.view.vulnerabilitiesContainer.get? index with
    | some (Card.card _ _ _ _ guid) => fetchVulnerabilityReport guid w
    | _ => (Except.ok (), w)

/-- A direct call of an operation. -/
def runCall (c : Call) : JS Unit :=
  match c with
  | Call.fetchStatistics => fetchStatistics
  | Call.fetchFiles => fetchFiles
  | Call.fetchVulnerabilities fileName => fetchVulnerabilities fileName
  | Call.fetchVulnerabilityReport guid => fetchVulnerabilityReport guid
  | Call.scanFile filePath => scanFile filePath
  | Call.scanDirectory directoryPath => scanDirectory directoryPath
  | Call.deleteVulnerabilityReport guid confirmed => deleteVulnerabilityReport guid confirmed

/-- The suspended operation that a response resumes; `none` when the response
is not one of the endpoint the request went to. -/
def resume (req : Request) (r : Response) : Option (JS Unit) :=
  match req, r with
  | Request.statistics, Response.statistics o => some (fetchStatisticsResumed o)
  | Request.files, Response.files o => some (fetchFilesResumed o)
  | Request.vulnerabilities fileName, Response.vulnerabilities o =>
      some (fetchVulnerabilitiesResumed fileName o)
  | Request.vulnerability _, Response.vulnerability o => some (fetchVulnerabilityReportResumed o)
  | Request.scanFile _, Response.scanFile o => some (scanFileResumed o)
  | Request.scanDirectory _, Response.scanDirectory o => some (scanDirectoryResumed o)
  | Request.deleteVulnerability _, Response.deleteVulnerability o =>
      some (deleteVulnerabilityReportResumed o)
  | _, _ => none

/-- The response `r` settles the request `id`: the request leaves the set of
requests in flight and its operation resumes. Nothing happens when no such
request is in flight. -/
def deliver (id : Nat) (r : Response) : JS Unit :=
  fun w =>
    match w.pending.lookup id with
    | some req =>
        match resume req r with
        | some k => k { w with pending := w.pending.filter (fun p => p.1 != id) }
        | none => (Except.ok (), w)
    | none => (Except.ok (), w)

/-- The timer `id` fires: its callback runs once. -/
def fire (id : Nat) : JS Unit :=
  fun w =>
    match w.timers.lookup id with
    | some cb => runTimer cb { w with timers := w.timers.filter (fun p => p.1 != id) }
    | none => (Except.ok (), w)

/-- What the controller runs on one event. -/
def handle (toLowerCase : JSString → JSString) (e : Event) : JS Unit :=
  match e with
  | Event.domContentLoaded => fun w => if w.started then (Except.ok (), w) else initApp w
  | Event.interval => fun w => if w.started then fetchStatistics w else (Except.ok (), w)
  | Event.ui u => fun w =>
      if w.started then setupEventListeners toLowerCase u w else (Except.ok (), w)
  | Event.clickFile index => clickFile index
  | Event.clickCard index => clickCard index
  | Event.call c => runCall c
  | Event.response id r => deliver id r
  | Event.timeout id => fire id

/-- One step of the controller: the world after the event `e`. An exception
that escapes a listener is reported by the host and changes nothing more. -/
def step (toLowerCase : JSString → JSString) (e : Event) (w : World) : World :=
  (handle toLowerCase e w).2

/-- The world after a sequence of events, oldest first. -/
def run (toLowerCase : JSString → JSString) (es : List Event) (w : World) : World :=
  es.foldl (fun acc e => step toLowerCase e acc) w

/-- Lower-casing of the ASCII letters, other code units unchanged: what
`toLowerCase` does on ASCII text. -/
def asciiLower (s : JSString) : JSString :=
  s.map (fun u => if 65 ≤ u.val ∧ u.val ≤ 90 then Fin.ofNat (u.val + 32) else u)

/-! ## Relations between worlds, and the examples used below -/

/-- Example list of entries for C3: two rendered files, the second one hidden
by an earlier search. -/
def exampleItems : List FileItem :=
  [{ textContent := js "Index.PHP", file := some (js "Index.PHP") },
   { textContent := js "notes.txt", display := js "none", file := some (js "notes.txt") }]

/-- Every run of `m` relates the world before to the world after by `R`. -/
def Respects (R : World → World → Prop) {α : Type} (m : JS α) : Prop :=
  ∀ w, R w (m w).2

/-- A relation between worlds that is reflexive, transitive and respected by
the primitives that do not write `appState`. -/
structure Stable (R : World → World → Prop) : Prop where
  refl : ∀ w, R w w
  trans : ∀ a b c, R a b → R b c → R a c
  view : ∀ f, Respects R (modifyView f)
  effect : ∀ e, Respects R (emit e)
  request : ∀ r, Respects R (fetch r)
  timer : ∀ cb, Respects R (setTimeout cb)
  store : ∀ g : AppState → AppState,
    (∀ s, (g s).selectedFile = s.selectedFile ∧ (g s).vulnerabilities = s.vulnerabilities) →
      Respects R (modifyState g)
  started : ∀ w, R w { w with started := true }
  settle : ∀ w id, R w { w with pending := w.pending.filter (fun p => p.1 != id) }
  expire : ∀ w id, R w { w with timers := w.timers.filter (fun p => p.1 != id) }

/-- Identifiers of requests in flight and of timers are below the next one
to be handed out. -/
def World.WellFormed (w : World) : Prop :=
  (∀ p ∈ w.pending, p.1 < w.nextId) ∧ (∀ p ∈ w.timers, p.1 < w.nextId)

/-- The selection and the list of findings of the store are the same in both
worlds. -/
def SameSelection (w w1 : World) : Prop :=
  w1.appState.selectedFile = w.appState.selectedFile ∧
  w1.appState.vulnerabilities = w.appState.vulnerabilities

/-- File A of the example for C4. -/
def fileA : JSString := js "a.php"

/-- File B of the example for C4. -/
def fileB : JSString := js "b.php"

/-- The list the server holds for file A in the example: one finding. -/
def findingsA : List Finding := [{ GUID := some (js "g1"), VulnClass := some (js "XSS") }]

/-- The list the server holds for file B in the example: no finding. -/
def findingsB : List Finding := []

/-- The user selects A, then B; the response for B settles first, the response
for A after it. -/
def staleRace : List Event :=
  [Event.call (Call.fetchVulnerabilities fileA),
   Event.call (Call.fetchVulnerabilities fileB),
   Event.response 1 (Response.vulnerabilities (Outcome.ok findingsB)),
   Event.response 0 (Response.vulnerabilities (Outcome.ok findingsA))]

/-- A directory scan whose request is rejected, from the page as loaded. -/
def failedDirectoryScan : List Event :=
  [Event.call (Call.scanDirectory (js "/var/www")),
   Event.response 0 (Response.scanDirectory Outcome.networkError)]

/-! ## Basic facts -/

theorem js_dots : js "..." = [46, 46, 46] := by decide

theorem js_empty : js "" = [] := by decide

theorem numberToString_zero : numberToString 0 = js "0" := by decide

theorem digitUnit_val (d : Nat) (h : d < 10) : (digitUnit d).val = 48 + d := by
  simp only [digitUnit, Fin.ofNat, Nat.succ_eq_add_one]
  omega

theorem readDigits_snoc (s : JSString) (u : CodeUnit) :
    readDigits (s ++ [u]) =
      match readDigits s with
      | some a => if 48 ≤ u.val ∧ u.val ≤ 57 then some (a * 10 + (u.val - 48)) else none
      | none => none := by
  simp only [readDigits, List.foldl_append, List.foldl_cons, List.foldl_nil]

theorem readDigits_natDigits (fuel n : Nat) (h : n < fuel) :
    readDigits (natDigits fuel n) = some n := by
  induction fuel generalizing n with
  | zero => omega
  | succ fuel ih =>
    unfold natDigits
    split
    · rename_i hn
      have hv := digitUnit_val n hn
      simp only [readDigits, List.foldl_cons, List.foldl_nil, hv]
      rw [if_pos (by omega)]
      congr 1
      omega
    · rename_i hn
      have hv := digitUnit_val (n % 10) (Nat.mod_lt _ (by decide))
      have hq : n / 10 < fuel := by omega
      rw [readDigits_snoc, ih (n / 10) hq]
      simp only [hv]
      rw [if_pos (by omega)]
      congr 1
      omega

theorem natDigits_digit (fuel n : Nat) :
    ∀ u ∈ natDigits fuel n, 48 ≤ u.val ∧ u.val ≤ 57 := by
  induction fuel generalizing n with
  | zero => intro u hu; simp [natDigits] at hu
  | succ fuel ih =>
    intro u hu
    unfold natDigits at hu
    split at hu
    · rename_i hn
      rw [List.mem_singleton] at hu
      rw [hu, digitUnit_val n hn]
      omega
    · rw [List.mem_append, List.mem_singleton] at hu
      rcases hu with hu | hu
      · exact ih _ u hu
      · rw [hu, digitUnit_val (n % 10) (Nat.mod_lt _ (by decide))]
        have := Nat.mod_lt n (show 10 > 0 by decide)
        omega

theorem natDigits_ne_nil (fuel n : Nat) : natDigits (fuel + 1) n ≠ [] := by
  unfold natDigits
  split <;> simp

/-- The text that `numberToString` gives is a decimal numeral of the number it
was given: reading it back gives that number. -/
theorem readDecimal_numberToString (x : JSNumber) :
    readDecimal (numberToString x) = some x.val := by
  have hread := readDigits_natDigits (x.val.natAbs + 1) x.val.natAbs (Nat.lt_succ_self _)
  have hne := natDigits_ne_nil x.val.natAbs x.val.natAbs
  unfold numberToString
  split
  · rename_i hneg
    cases hds : natDigits (x.val.natAbs + 1) x.val.natAbs with
    | nil => exact absurd hds hne
    | cons u rest =>
      rw [hds] at hread
      have h45 : (45 : CodeUnit).val = 45 := rfl
      have hval := Int.ofNat_natAbs_of_nonpos (le_of_lt hneg)
      simp only [readDecimal, h45, if_true, hread, Int.ofNat_eq_coe]
      congr 1
      omega
  · rename_i hpos
    cases hds : natDigits (x.val.natAbs + 1) x.val.natAbs with
    | nil => exact absurd hds hne
    | cons u rest =>
      have hu := natDigits_digit (x.val.natAbs + 1) x.val.natAbs u (by rw [hds]; exact List.mem_cons_self _ _)
      rw [hds] at hread
      have hne45 : ¬ u.val = 45 := by omega
      have hval := Int.natAbs_of_nonneg (not_lt.mp hpos)
      simp only [readDecimal, hne45, if_false, hread, Int.ofNat_eq_coe]
      congr 1


/-- The search of `includes` finds exactly the contiguous occurrences. -/
theorem includes_iff (s t : JSString) : includes s t = true ↔ t <:+: s := by
  unfold includes
  simp only [List.any_eq_true, List.mem_range, Bool.and_eq_true, decide_eq_true_eq]
  constructor
  · rintro ⟨i, _, _, h⟩
    refine ⟨s.take i, (s.drop i).drop t.length, ?_⟩
    have h1 : (s.drop i).take t.length ++ (s.drop i).drop t.length = s.drop i :=
      List.take_append_drop _ _
    rw [h] at h1
    rw [List.append_assoc, h1, List.take_append_drop]
  · rintro ⟨a, b, rfl⟩
    refine ⟨a.length, ?_, ?_, ?_⟩
    · simp only [List.length_append]; omega
    · simp only [List.length_append]; omega
    · simp

theorem truncateText_short (text : JSString) (maxLength : Nat) (h : text.length ≤ maxLength) :
    truncateText text maxLength = text := by
  unfold truncateText
  cases text with
  | nil => simp [js_empty]
  | cons a l =>
    simp only [List.isEmpty_cons, Bool.false_eq_true, if_false]
    rw [if_pos h]

theorem truncateText_long (text : JSString) (maxLength : Nat) (h : maxLength < text.length) :
    truncateText text maxLength = text.take maxLength ++ js "..." := by
  unfold truncateText
  cases text with
  | nil => simp at h
  | cons a l =>
    simp only [List.isEmpty_cons, Bool.false_eq_true, if_false]
    rw [if_neg (Nat.not_le.mpr h)]

/-! ## Claims about the view helpers -/

/-- C1. For every string `text`, `truncateText(text, 100)` is `text` itself when
`text.length <= 100`, and the first 100 code units of `text` followed by
`"..."` when `text.length > 100`. -/
theorem truncateText_hundred (text : JSString) :
    (text.length ≤ 100 → truncateText text 100 = text) ∧
    (100 < text.length → truncateText text 100 = text.take 100 ++ js "...") :=
  ⟨truncateText_short text 100, truncateText_long text 100⟩

/-- Witness of C1: a three-unit text is returned as it is, and a text of 101
units is cut to its first 100 units followed by the three dots. -/
theorem truncateText_hundred_witness :
    truncateText (js "abc") 100 = js "abc" ∧
    truncateText (List.replicate 101 97) 100 = List.replicate 100 97 ++ js "..." :=
  ⟨(truncateText_hundred (js "abc")).1 (by decide),
   (truncateText_hundred (List.replicate 101 97)).2 (by decide)⟩

/-- C10. For every string `text` and every `maxLength >= 0`, the result of
`truncateText(text, maxLength)` has at most `maxLength + 3` code units, begins
with the first `min(text.length, maxLength)` code units of `text`, and
truncating it again with the same `maxLength` gives it back. -/
theorem truncateText_bounded_idempotent (text : JSString) (maxLength : Nat) :
    (truncateText text maxLength).length ≤ maxLength + 3 ∧
    text.take (min text.length maxLength) <+: truncateText text maxLength ∧
    truncateText (truncateText text maxLength) maxLength = truncateText text maxLength := by
  rcases Nat.lt_or_ge maxLength text.length with h | h
  · have hlen : (text.take maxLength ++ js "...").length = maxLength + 3 := by
      simp [js_dots, List.length_take, Nat.min_eq_left (Nat.le_of_lt h)]
    rw [truncateText_long text maxLength h]
    refine ⟨Nat.le_of_eq hlen, ?_, ?_⟩
    · rw [Nat.min_eq_right (Nat.le_of_lt h)]
      exact List.prefix_append _ _
    · rw [truncateText_long _ maxLength (by omega)]
      congr 1
      rw [List.take_append_of_le_length (by simp [List.length_take]; omega)]
      simp [List.take_take]
  · rw [truncateText_short text maxLength h]
    refine ⟨by omega, ?_, truncateText_short text maxLength h⟩
    rw [Nat.min_eq_left h, List.take_length]

/-- C2. For every statistics payload, each of the six counters shows the decimal
numeral of the payload field when the field is present and of 0 when the
payload lacks it: the text shown is `numberToString` of that number, reading
any such text back as a decimal numeral gives the number it was made from,
and the text for 0 is "0" (for 42 it is "42", for -7 it is "-7"). -/
theorem updateStatistics_counters (stats : Statistics) (v : View) :
    ((updateStatistics stats v).totalTasks = numberToString (stats.total.getD 0) ∧
      readDecimal (updateStatistics stats v).totalTasks = some (stats.total.getD 0).val) ∧
    ((updateStatistics stats v).pendingTasks = numberToString (stats.pending.getD 0) ∧
      readDecimal (updateStatistics stats v).pendingTasks = some (stats.pending.getD 0).val) ∧
    ((updateStatistics stats v).processingTasks = numberToString (stats.processing.getD 0) ∧
      readDecimal (updateStatistics stats v).processingTasks
        = some (stats.processing.getD 0).val) ∧
    ((updateStatistics stats v).completedTasks = numberToString (stats.completed.getD 0) ∧
      readDecimal (updateStatistics stats v).completedTasks
        = some (stats.completed.getD 0).val) ∧
    ((updateStatistics stats v).failedTasks = numberToString (stats.failed.getD 0) ∧
      readDecimal (updateStatistics stats v).failedTasks = some (stats.failed.getD 0).val) ∧
    ((updateStatistics stats v).vulnerabilitiesCount
        = numberToString (stats.vulnerabilities.getD 0) ∧
      readDecimal (updateStatistics stats v).vulnerabilitiesCount
        = some (stats.vulnerabilities.getD 0).val) ∧
    (∀ n : JSNumber, readDecimal (numberToString n) = some n.val) ∧
    numberToString 0 = js "0" ∧
    numberToString ⟨42, by decide⟩ = js "42" ∧
    numberToString ⟨-7, by decide⟩ = js "-7" := by
  have key : ∀ n : Option JSNumber, numOrZero n = n.getD 0 := by
    intro n
    cases n with
    | none => rfl
    | some k =>
      simp only [numOrZero, Option.getD_some]
      split
      · rename_i h
        exact Subtype.ext h.symm
      · rfl
  simp only [updateStatistics, key, readDecimal_numberToString, and_self, true_and]
  refine ⟨fun _ => trivial, by decide, by decide, by decide⟩

/-- C3. For every list of rendered entries and every search term, whatever the
entries showed before: after `filterFiles(term)` the entry at each position
keeps its text, is shown (`display` is "") if and only if the lower-cased
term occurs in its lower-cased text, and is hidden (`display` is "none")
otherwise; with the empty term, which `toLowerCase` leaves empty, every entry
is shown; and the text of an entry rendered for a file is the file name. -/
theorem filterFiles_shown_iff (toLowerCase : JSString → JSString) (searchTerm : JSString)
    (items : List FileItem) :
    (∀ (i : Nat) (item : FileItem), items[i]? = some item →
      ∃ shown : FileItem, (filterFiles toLowerCase searchTerm items)[i]? = some shown ∧
        shown.textContent = item.textContent ∧
        (shown.display = js "" ↔ toLowerCase searchTerm <:+: toLowerCase item.textContent) ∧
        (shown.display = js "none" ↔
          ¬ toLowerCase searchTerm <:+: toLowerCase item.textContent)) ∧
    (filterFiles toLowerCase searchTerm items).length = items.length ∧
    (toLowerCase (js "") = js "" →
      ∀ shown ∈ filterFiles toLowerCase (js "") items, shown.display = js "") ∧
    (∀ (files : List JSString) (v : View) (i : Nat) (file : JSString),
      files[i]? = some file →
        (renderFilesList files v).filesList[i]? = some { textContent := file, file := some file }) := by
  have hne : js "" ≠ js "none" := by decide
  refine ⟨?_, ?_, ?_, ?_⟩
  · intro i item hi
    by_cases hin : toLowerCase searchTerm <:+: toLowerCase item.textContent
    · refine ⟨{ item with display := js "" }, ?_, rfl, ?_, ?_⟩
      · simp [filterFiles, hi, (includes_iff _ _).mpr hin]
      · simp [hin]
      · simp [hin, hne]
    · have hf : includes (toLowerCase item.textContent) (toLowerCase searchTerm) = false := by
        rw [Bool.eq_false_iff]
        intro h
        exact hin ((includes_iff _ _).mp h)
      refine ⟨{ item with display := js "none" }, ?_, rfl, ?_, ?_⟩
      · simp [filterFiles, hi, hf]
      · simp [hin, hne.symm]
      · simp [hin]
  · simp [filterFiles]
  · intro h0 shown hmem
    simp only [filterFiles, List.mem_map] at hmem
    obtain ⟨item, _, rfl⟩ := hmem
    have hin : includes (toLowerCase item.textContent) (toLowerCase (js "")) = true := by
      rw [includes_iff, h0, js_empty]
      exact List.nil_infix
    simp [hin]
  · intro files v i file hi
    have hlen : files.length ≠ 0 := by
      intro h0
      rw [List.length_eq_zero] at h0
      simp [h0] at hi
    simp [renderFilesList, hlen, hi]

/-- Witness of C3, with ASCII lower-casing: the search "PHP" shows the entry
"Index.PHP", and the empty search shows every entry again. -/
theorem filterFiles_shown_iff_witness :
    (∃ shown : FileItem, (filterFiles asciiLower (js "PHP") exampleItems)[0]? = some shown ∧
        shown.textContent = js "Index.PHP" ∧
        (shown.display = js "" ↔ asciiLower (js "PHP") <:+: asciiLower (js "Index.PHP")) ∧
        (shown.display = js "none" ↔
          ¬ asciiLower (js "PHP") <:+: asciiLower (js "Index.PHP"))) ∧
    (∀ shown ∈ filterFiles asciiLower (js "") exampleItems, shown.display = js "") ∧
    (renderFilesList [js "Index.PHP"] {}).filesList[0]?
      = some { textContent := js "Index.PHP", file := some (js "Index.PHP") } :=
  ⟨(filterFiles_shown_iff asciiLower (js "PHP") exampleItems).1 0
      { textContent := js "Index.PHP", file := some (js "Index.PHP") } (by decide),
   (filterFiles_shown_iff asciiLower (js "PHP") exampleItems).2.2.1 (by decide),
   (filterFiles_shown_iff asciiLower (js "PHP") exampleItems).2.2.2
      [js "Index.PHP"] {} 0 (js "Index.PHP") (by decide)⟩

/-! ## Facts about runs of statements -/

theorem JS.pure_apply {α : Type} (a : α) (w : World) :
    (pure a : JS α) w = (Except.ok a, w) := rfl

theorem JS.bind_apply {α β : Type} (m : JS α) (f : α → JS β) (w : World) :
    (m >>= f) w =
      match m w with
      | (Except.ok a, w1) => f a w1
      | (Except.error e, w1) => (Except.error e, w1) := rfl

/-! ## Claims about the operations -/

/-- C9. For each of `fetchStatistics`, `fetchFiles`, `fetchVulnerabilities` and
`fetchVulnerabilityReport`: the call leaves `appState` as it was, and when the
request fails in transport (the fetch is rejected, or the body does not
parse) the operation completes without throwing and `appState` is exactly as
before; the store is written only on a parsed response. -/
theorem fetch_failure_keeps_store (w : World) (fileName : JSString) (guid : Option JSString) :
    ((fetchStatistics.run w).1 = Except.ok () ∧ (fetchStatistics.run w).2.appState = w.appState) ∧
    ((fetchFiles.run w).1 = Except.ok () ∧ (fetchFiles.run w).2.appState = w.appState) ∧
    (((fetchVulnerabilities fileName).run w).1 = Except.ok () ∧
      ((fetchVulnerabilities fileName).run w).2.appState = w.appState) ∧
    (((fetchVulnerabilityReport guid).run w).1 = Except.ok () ∧
      ((fetchVulnerabilityReport guid).run w).2.appState = w.appState) ∧
    (((fetchStatisticsResumed Outcome.networkError).run w).1 = Except.ok () ∧
      ((fetchStatisticsResumed Outcome.networkError).run w).2.appState = w.appState) ∧
    (((fetchStatisticsResumed Outcome.parseError).run w).1 = Except.ok () ∧
      ((fetchStatisticsResumed Outcome.parseError).run w).2.appState = w.appState) ∧
    (((fetchFilesResumed Outcome.networkError).run w).1 = Except.ok () ∧
      ((fetchFilesResumed Outcome.networkError).run w).2.appState = w.appState) ∧
    (((fetchFilesResumed Outcome.parseError).run w).1 = Except.ok () ∧
      ((fetchFilesResumed Outcome.parseError).run w).2.appState = w.appState) ∧
    (((fetchVulnerabilitiesResumed fileName Outcome.networkError).run w).1 = Except.ok () ∧
      ((fetchVulnerabilitiesResumed fileName Outcome.networkError).run w).2.appState
        = w.appState) ∧
    (((fetchVulnerabilitiesResumed fileName Outcome.parseError).run w).1 = Except.ok () ∧
      ((fetchVulnerabilitiesResumed fileName Outcome.parseError).run w).2.appState
        = w.appState) ∧
    (((fetchVulnerabilityReportResumed Outcome.networkError).run w).1 = Except.ok () ∧
      ((fetchVulnerabilityReportResumed Outcome.networkError).run w).2.appState = w.appState) ∧
    (((fetchVulnerabilityReportResumed Outcome.parseError).run w).1 = Except.ok () ∧
      ((fetchVulnerabilityReportResumed Outcome.parseError).run w).2.appState = w.appState) := by
  have hcall : ((fetchVulnerabilities fileName).run w).1 = Except.ok () ∧
      ((fetchVulnerabilities fileName).run w).2.appState = w.appState := by
    by_cases h : isWellFormed fileName = true <;>
      simp [JS.run, fetchVulnerabilities, tryCatch, encodeURIComponent, h, fetch, emit,
        JS.bind_apply]
  refine ⟨?_, ?_, hcall, ?_⟩ <;>
    simp [JS.run, fetchStatistics, fetchFiles, fetchVulnerabilityReport,
      fetchStatisticsResumed, fetchFilesResumed, fetchVulnerabilitiesResumed,
      fetchVulnerabilityReportResumed, fetch, tryCatch, await, emit, JS.bind_apply]

/-! ## Relations that every run respects -/

section respects

variable {R : World → World → Prop}

theorem Respects.pure (hR : Stable R) {α : Type} (a : α) : Respects R (pure a : JS α) :=
  fun w => hR.refl w

theorem Respects.bind (hR : Stable R) {α β : Type} {m : JS α} {f : α → JS β}
    (hm : Respects R m) (hf : ∀ a, Respects R (f a)) : Respects R (m >>= f) := by
  intro w
  rw [JS.bind_apply]
  have h1 := hm w
  rcases hmw : m w with ⟨r, w1⟩
  rw [hmw] at h1
  cases r with
  | ok a => exact hR.trans _ _ _ h1 (hf a w1)
  | error e => exact h1

theorem Respects.tryCatch (hR : Stable R) {body : JS Unit} {handler : JSError → JS Unit}
    (hb : Respects R body) (hh : ∀ e, Respects R (handler e)) :
    Respects R (tryCatch body handler) := by
  intro w
  unfold Flatline.tryCatch
  have h1 := hb w
  rcases hbw : body w with ⟨r, w1⟩
  rw [hbw] at h1
  cases r with
  | ok a => exact h1
  | error e => exact hR.trans _ _ _ h1 (hh e w1)

theorem Respects.await (hR : Stable R) {α : Type} (o : Outcome α) : Respects R (await o) := by
  intro w
  cases o <;> exact hR.refl w

theorem Respects.getState (hR : Stable R) : Respects R getState :=
  fun w => hR.refl w

theorem fetchStatistics_respects (hR : Stable R) : Respects R fetchStatistics :=
  hR.request _

theorem fetchFiles_respects (hR : Stable R) : Respects R fetchFiles :=
  hR.request _

theorem fetchVulnerabilities_respects (hR : Stable R) (fileName : JSString) :
    Respects R (fetchVulnerabilities fileName) := by
  unfold fetchVulnerabilities
  refine Respects.tryCatch hR ?_ fun _ => hR.effect _
  refine Respects.bind hR ?_ fun _ => hR.request _
  intro w
  unfold encodeURIComponent
  split <;> exact hR.refl w

theorem scanFile_respects (hR : Stable R) (filePath : JSString) :
    Respects R (scanFile filePath) := by
  unfold scanFile
  exact Respects.bind hR (hR.view _) fun _ => Respects.bind hR (hR.view _) fun _ => hR.request _

theorem scanDirectory_respects (hR : Stable R) (directoryPath : JSString) :
    Respects R (scanDirectory directoryPath) := by
  unfold scanDirectory
  exact Respects.bind hR (hR.view _) fun _ => Respects.bind hR (hR.view _) fun _ => hR.request _

theorem scanFileResumed_respects (hR : Stable R) (o : Outcome Unit) :
    Respects R (scanFileResumed o) := by
  unfold scanFileResumed
  refine Respects.tryCatch hR ?_ fun _ => ?_
  · exact Respects.bind hR (Respects.await hR o) fun _ =>
      Respects.bind hR (hR.view _) fun _ => hR.timer _
  · exact Respects.bind hR (hR.effect _) fun _ => Respects.bind hR (hR.view _) fun _ =>
      Respects.bind hR (hR.view _) fun _ => hR.effect _

theorem scanDirectoryResumed_respects (hR : Stable R) (o : Outcome ScanDirectoryResult) :
    Respects R (scanDirectoryResumed o) := by
  unfold scanDirectoryResumed
  refine Respects.tryCatch hR ?_ fun _ => ?_
  · exact Respects.bind hR (Respects.await hR o) fun _ =>
      Respects.bind hR (hR.view _) fun _ => hR.timer _
  · exact Respects.bind hR (hR.effect _) fun _ => Respects.bind hR (hR.view _) fun _ =>
      Respects.bind hR (fetchStatistics_respects hR) fun _ => hR.effect _

theorem runTimer_respects (hR : Stable R) (cb : TimerCallback) : Respects R (runTimer cb) := by
  cases cb <;>
  exact Respects.bind hR (fetchStatistics_respects hR) fun _ =>
    Respects.bind hR (fetchFiles_respects hR) fun _ =>
      Respects.bind hR (hR.view _) fun _ => hR.effect _

theorem deleteVulnerabilityReport_respects (hR : Stable R) (guid : Option JSString)
    (confirmed : Bool) : Respects R (deleteVulnerabilityReport guid confirmed) := by
  unfold deleteVulnerabilityReport
  refine Respects.bind hR (hR.effect _) fun _ => ?_
  split
  · exact Respects.pure hR _
  · exact hR.request _

theorem deleteVulnerabilityReportResumed_respects (hR : Stable R) (o : Outcome DeleteResult) :
    Respects R (deleteVulnerabilityReportResumed o) := by
  unfold deleteVulnerabilityReportResumed
  refine Respects.tryCatch hR ?_ fun _ => ?_
  · refine Respects.bind hR (Respects.await hR o) fun data => ?_
    split
    · refine Respects.bind hR (hR.view _) fun _ => Respects.bind hR (Respects.getState hR) fun s => ?_
      dsimp only
      split
      · split
        · exact Respects.bind hR (fetchVulnerabilities_respects hR _) fun _ =>
            fetchStatistics_respects hR
        · exact Respects.bind hR (Respects.pure hR _) fun _ => fetchStatistics_respects hR
      · exact Respects.bind hR (Respects.pure hR _) fun _ => fetchStatistics_respects hR
    · exact Respects.pure hR _
  · exact Respects.bind hR (hR.effect _) fun _ => hR.effect _

theorem exportVulnerabilityReportsAsMarkdown_respects (hR : Stable R) :
    Respects R exportVulnerabilityReportsAsMarkdown := by
  unfold exportVulnerabilityReportsAsMarkdown
  exact Respects.tryCatch hR (hR.effect _) fun _ => Respects.bind hR (hR.effect _) fun _ => hR.effect _

theorem fetchStatisticsResumed_respects (hR : Stable R) (o : Outcome Statistics) :
    Respects R (fetchStatisticsResumed o) := by
  unfold fetchStatisticsResumed
  refine Respects.tryCatch hR ?_ fun _ => hR.effect _
  exact Respects.bind hR (Respects.await hR o) fun _ =>
    Respects.bind hR (hR.store _ fun _ => ⟨rfl, rfl⟩) fun _ => hR.view _

theorem fetchFilesResumed_respects (hR : Stable R) (o : Outcome (List JSString)) :
    Respects R (fetchFilesResumed o) := by
  unfold fetchFilesResumed
  refine Respects.tryCatch hR ?_ fun _ => hR.effect _
  exact Respects.bind hR (Respects.await hR o) fun _ =>
    Respects.bind hR (hR.store _ fun _ => ⟨rfl, rfl⟩) fun _ => hR.view _

theorem fetchVulnerabilityReportResumed_respects (hR : Stable R) (o : Outcome Finding) :
    Respects R (fetchVulnerabilityReportResumed o) := by
  unfold fetchVulnerabilityReportResumed
  refine Respects.tryCatch hR ?_ fun _ => hR.effect _
  exact Respects.bind hR (Respects.await hR o) fun _ =>
    Respects.bind hR (hR.store _ fun _ => ⟨rfl, rfl⟩) fun _ => hR.view _

theorem fetchVulnerabilitiesResumed_failure_respects (hR : Stable R) (fileName : JSString)
    (o : Outcome (List Finding)) (ho : ∀ data, o ≠ Outcome.ok data) :
    Respects R (fetchVulnerabilitiesResumed fileName o) := by
  intro w
  cases o with
  | ok data => exact absurd rfl (ho data)
  | networkError => exact hR.effect _ w
  | parseError => exact hR.effect _ w

theorem initApp_respects (hR : Stable R) : Respects R initApp := by
  unfold initApp
  exact Respects.bind hR (fetchStatistics_respects hR) fun _ =>
    Respects.bind hR (fetchFiles_respects hR) fun _ => fun w => hR.started w

theorem setupEventListeners_respects (hR : Stable R) (toLowerCase : JSString → JSString)
    (e : UIEvent) : Respects R (setupEventListeners toLowerCase e) := by
  cases e with
  | submitScanFile value => exact scanFile_respects hR value
  | submitScanDirectory value => exact scanDirectory_respects hR value
  | searchInput value => exact hR.view _
  | clickCloseModal => exact hR.view _
  | clickWindow onModal =>
    simp only [setupEventListeners]
    split
    · exact hR.view _
    · exact Respects.pure hR _
  | clickDeleteVulnerability confirmed =>
    simp only [setupEventListeners]
    refine Respects.bind hR (Respects.getState hR) fun s => ?_
    split
    · exact deleteVulnerabilityReport_respects hR _ _
    · exact Respects.pure hR _
  | clickExportMarkdown => exact exportVulnerabilityReportsAsMarkdown_respects hR

theorem clickFile_respects (hR : Stable R) (index : Nat) : Respects R (clickFile index) := by
  intro w
  unfold clickFile
  split
  · split
    · exact Respects.bind hR (hR.view _) (fun _ => fetchVulnerabilities_respects hR _) w
    · exact hR.refl w
  · exact hR.refl w

theorem clickCard_respects (hR : Stable R) (index : Nat) : Respects R (clickCard index) := by
  intro w
  unfold clickCard
  split
  · exact hR.request _ w
  · exact hR.refl w

theorem runCall_respects (hR : Stable R) (c : Call) : Respects R (runCall c) := by
  cases c with
  | fetchStatistics => exact fetchStatistics_respects hR
  | fetchFiles => exact fetchFiles_respects hR
  | fetchVulnerabilities fileName => exact fetchVulnerabilities_respects hR fileName
  | fetchVulnerabilityReport guid => exact hR.request _
  | scanFile filePath => exact scanFile_respects hR filePath
  | scanDirectory directoryPath => exact scanDirectory_respects hR directoryPath
  | deleteVulnerabilityReport guid confirmed =>
    exact deleteVulnerabilityReport_respects hR guid confirmed

theorem fire_respects (hR : Stable R) (id : Nat) : Respects R (fire id) := by
  intro w
  unfold fire
  split
  · exact hR.trans _ _ _ (hR.expire w id) (runTimer_respects hR _ _)
  · exact hR.refl w

/-- A response resumes its operation under `R`, except when it is a parsed
list of findings that settles a `fetchVulnerabilities` request. -/
theorem deliver_respects_or (hR : Stable R) (id : Nat) (r : Response) (w : World) :
    R w (deliver id r w).2 ∨
    ∃ fileName data, r = Response.vulnerabilities (Outcome.ok data) ∧
      w.pending.lookup id = some (Request.vulnerabilities fileName) ∧
      deliver id r w = fetchVulnerabilitiesResumed fileName (Outcome.ok data)
        { w with pending := w.pending.filter (fun p => p.1 != id) } := by
  unfold deliver
  cases hl : w.pending.lookup id with
  | none => exact Or.inl (hR.refl w)
  | some req =>
    have hs := hR.settle w id
    cases req <;> cases r <;> simp only [resume] <;>
      first
      | exact Or.inl (hR.refl w)
      | exact Or.inl (hR.trans _ _ _ hs (fetchStatisticsResumed_respects hR _ _))
      | exact Or.inl (hR.trans _ _ _ hs (fetchFilesResumed_respects hR _ _))
      | exact Or.inl (hR.trans _ _ _ hs (fetchVulnerabilityReportResumed_respects hR _ _))
      | exact Or.inl (hR.trans _ _ _ hs (scanFileResumed_respects hR _ _))
      | exact Or.inl (hR.trans _ _ _ hs (scanDirectoryResumed_respects hR _ _))
      | exact Or.inl (hR.trans _ _ _ hs (deleteVulnerabilityReportResumed_respects hR _ _))
      | skip
    rename_i fileName o
    cases o with
    | ok data => exact Or.inr ⟨fileName, data, rfl, rfl, rfl⟩
    | networkError =>
      exact Or.inl (hR.trans _ _ _ hs
        (fetchVulnerabilitiesResumed_failure_respects hR _ _ (by intro d h; cases h) _))
    | parseError =>
      exact Or.inl (hR.trans _ _ _ hs
        (fetchVulnerabilitiesResumed_failure_respects hR _ _ (by intro d h; cases h) _))

/-- Every step respects `R`, except the step in which a parsed list of findings
settles a `fetchVulnerabilities` request. -/
theorem step_respects_or (hR : Stable R) (toLowerCase : JSString → JSString) (e : Event)
    (w : World) :
    R w (step toLowerCase e w) ∨
    ∃ id fileName data, e = Event.response id (Response.vulnerabilities (Outcome.ok data)) ∧
      w.pending.lookup id = some (Request.vulnerabilities fileName) ∧
      step toLowerCase e w = (fetchVulnerabilitiesResumed fileName (Outcome.ok data)
        { w with pending := w.pending.filter (fun p => p.1 != id) }).2 := by
  cases e with
  | domContentLoaded =>
    left
    simp only [step, handle]
    split
    · exact hR.refl w
    · exact initApp_respects hR w
  | interval =>
    left
    simp only [step, handle]
    split
    · exact fetchStatistics_respects hR w
    · exact hR.refl w
  | ui u =>
    left
    simp only [step, handle]
    split
    · exact setupEventListeners_respects hR toLowerCase u w
    · exact hR.refl w
  | clickFile index => exact Or.inl (clickFile_respects hR index w)
  | clickCard index => exact Or.inl (clickCard_respects hR index w)
  | call c => exact Or.inl (runCall_respects hR c w)
  | response id r =>
    rcases deliver_respects_or hR id r w with h | ⟨fileName, data, hr, hl, hd⟩
    · exact Or.inl h
    · refine Or.inr ⟨id, fileName, data, by rw [hr], hl, ?_⟩
      simp only [step, handle]
      rw [hd]
  | timeout id => exact Or.inl (fire_respects hR id w)

end respects

/-! ## Two relations every step respects -/

theorem sameSelection_stable : Stable SameSelection where
  refl := fun _ => ⟨rfl, rfl⟩
  trans := fun _ _ _ h1 h2 => ⟨h2.1.trans h1.1, h2.2.trans h1.2⟩
  view := fun _ _ => ⟨rfl, rfl⟩
  effect := fun _ _ => ⟨rfl, rfl⟩
  request := fun _ _ => ⟨rfl, rfl⟩
  timer := fun _ _ => ⟨rfl, rfl⟩
  store := fun _ hg w => hg w.appState
  started := fun _ => ⟨rfl, rfl⟩
  settle := fun _ _ => ⟨rfl, rfl⟩
  expire := fun _ _ => ⟨rfl, rfl⟩

theorem wellFormed_stable : Stable (fun w w1 => w.WellFormed → w1.WellFormed) where
  refl := fun _ h => h
  trans := fun _ _ _ h1 h2 h => h2 (h1 h)
  view := fun _ _ h => h
  effect := fun _ _ h => h
  request := by
    intro r w h
    refine ⟨?_, ?_⟩
    · intro p hp
      simp only [fetch, List.mem_append, List.mem_singleton] at hp
      rcases hp with hp | hp
      · exact Nat.lt_succ_of_lt (h.1 p hp)
      · rw [hp]; exact Nat.lt_succ_self _
    · intro p hp
      exact Nat.lt_succ_of_lt (h.2 p hp)
  timer := by
    intro cb w h
    refine ⟨?_, ?_⟩
    · intro p hp
      exact Nat.lt_succ_of_lt (h.1 p hp)
    · intro p hp
      simp only [setTimeout, List.mem_append, List.mem_singleton] at hp
      rcases hp with hp | hp
      · exact Nat.lt_succ_of_lt (h.2 p hp)
      · rw [hp]; exact Nat.lt_succ_self _
  store := fun _ _ _ h => h
  started := fun _ h => h
  settle := fun _ _ h => ⟨fun p hp => h.1 p (List.mem_filter.mp hp).1, h.2⟩
  expire := fun _ _ h => ⟨h.1, fun p hp => h.2 p (List.mem_filter.mp hp).1⟩

/-- What a parsed list of findings does to the world when it resumes
`fetchVulnerabilities(fileName)`: the two fields of the store are written and
the list is rendered. -/
theorem fetchVulnerabilitiesResumed_ok (fileName : JSString) (data : List Finding) (w : World) :
    fetchVulnerabilitiesResumed fileName (Outcome.ok data) w =
      (Except.ok (), { w with
        appState := { w.appState with vulnerabilities := data, selectedFile := some fileName }
        view := renderVulnerabilities data fileName w.view }) := by
  simp [fetchVulnerabilitiesResumed, tryCatch, await, JS.bind_apply, JS.pure_apply, modifyState,
    modifyView]

theorem run_snoc (toLowerCase : JSString → JSString) (es : List Event) (e : Event) (w : World) :
    run toLowerCase (es ++ [e]) w = step toLowerCase e (run toLowerCase es w) := by
  simp [run, List.foldl_append]

theorem step_wellFormed (toLowerCase : JSString → JSString) (e : Event) (w : World)
    (h : w.WellFormed) : (step toLowerCase e w).WellFormed := by
  rcases step_respects_or wellFormed_stable toLowerCase e w with hr | ⟨id, fileName, data, _, _, hs⟩
  · exact hr h
  · rw [hs, fetchVulnerabilitiesResumed_ok]
    exact ⟨fun p hp => h.1 p (List.mem_filter.mp hp).1, h.2⟩

theorem run_wellFormed (toLowerCase : JSString → JSString) (es : List Event) (w : World)
    (h : w.WellFormed) : (run toLowerCase es w).WellFormed := by
  induction es generalizing w with
  | nil => exact h
  | cons e es ih => exact ih _ (step_wellFormed toLowerCase e w h)

theorem init_wellFormed (v : View) : (World.init v).WellFormed :=
  ⟨fun _ hp => by simp [World.init] at hp, fun _ hp => by simp [World.init] at hp⟩

theorem lookup_append_fresh {β : Type} (l rest : List (Nat × β)) (k : Nat) (b : β)
    (h : ∀ p ∈ l, p.1 < k) : (l ++ (k, b) :: rest).lookup k = some b := by
  induction l with
  | nil => simp [List.lookup]
  | cons a l ih =>
    have ha : a.1 < k := h a (List.mem_cons_self _ _)
    have hne : (k == a.1) = false := by
      rw [beq_eq_false_iff_ne]
      omega
    rcases a with ⟨a1, a2⟩
    simp only [List.cons_append, List.lookup, hne]
    exact ih (fun p hp => h p (List.mem_cons_of_mem _ hp))

theorem lookup_filter_ne {β : Type} (l : List (Nat × β)) (k j : Nat) (h : k ≠ j) :
    (l.filter (fun p => p.1 != j)).lookup k = l.lookup k := by
  induction l with
  | nil => rfl
  | cons a l ih =>
    rcases a with ⟨a1, a2⟩
    by_cases haj : a1 = j
    · have hk : (k == a1) = false := by
        rw [beq_eq_false_iff_ne]
        omega
      simp [List.filter, haj, List.lookup, ih]
      rw [← haj] at h
      simp [haj ▸ hk]
    · have hf : (a1 != j) = true := by simp [haj]
      simp only [List.filter, hf, List.lookup]
      cases hka : (k == a1) with
      | true => rfl
      | false => exact ih

/-- The step in which a parsed list of findings settles the request `id` of
`fetchVulnerabilities(fileName)`. -/
theorem step_vulnerabilities_ok (toLowerCase : JSString → JSString) (w : World) (id : Nat)
    (fileName : JSString) (data : List Finding)
    (h : w.pending.lookup id = some (Request.vulnerabilities fileName)) :
    step toLowerCase (Event.response id (Response.vulnerabilities (Outcome.ok data))) w =
      { w with
        pending := w.pending.filter (fun p => p.1 != id)
        appState := { w.appState with vulnerabilities := data, selectedFile := some fileName }
        view := renderVulnerabilities data fileName w.view } := by
  simp only [step, handle, deliver, h, resume]
  rw [fetchVulnerabilitiesResumed_ok]

/-- The call `fetchVulnerabilities(fileName)` as a step, for a file name that
`encodeURIComponent` accepts. -/
theorem step_call_fetchVulnerabilities (toLowerCase : JSString → JSString) (w : World)
    (fileName : JSString) (h : isWellFormed fileName = true) :
    step toLowerCase (Event.call (Call.fetchVulnerabilities fileName)) w =
      { w with
        pending := w.pending ++ [(w.nextId, Request.vulnerabilities fileName)]
        nextId := w.nextId + 1 } := by
  simp [step, handle, runCall, fetchVulnerabilities, tryCatch, encodeURIComponent, h, fetch,
    JS.bind_apply]

/-! ## Claims about the store -/

/-- C4, counterexample. The user selects `a.php` and then `b.php`; the response
for `b.php` settles first and the response for `a.php` after it. At the end
the store names `a.php` and holds the list of `a.php`: the stale response has
overwritten the store, which is neither B nor the list of B. -/
theorem stale_response_overwrites_store :
    (run asciiLower staleRace (World.init {})).appState.selectedFile = some fileA ∧
    (run asciiLower staleRace (World.init {})).appState.vulnerabilities = findingsA ∧
    (run asciiLower staleRace (World.init {})).appState.selectedFile ≠ some fileB ∧
    (run asciiLower staleRace (World.init {})).appState.vulnerabilities ≠ findingsB := by
  decide

/-- C4, amended. In every reachable world, after `fetchVulnerabilities(A)` and
then `fetchVulnerabilities(B)` are started (both requests are sent: neither
name has a lone surrogate, for which no request would be started), the store
holds the file and the list of the response that settled last: B and the list
of B when the response for A settles first and the one for B second, B and
the list of B as soon as the response for B has settled first, and A and the
list of A once the response for A has settled after it. -/
theorem last_settled_response_wins (toLowerCase : JSString → JSString) (v : View)
    (es : List Event) (A B : JSString) (LA LB : List Finding)
    (hsentA : isWellFormed A = true) (hsentB : isWellFormed B = true) :
    let w0 := run toLowerCase es (World.init v)
    let w := run toLowerCase
      [Event.call (Call.fetchVulnerabilities A), Event.call (Call.fetchVulnerabilities B)] w0
    let respA := Event.response w0.nextId (Response.vulnerabilities (Outcome.ok LA))
    let respB := Event.response (w0.nextId + 1) (Response.vulnerabilities (Outcome.ok LB))
    ((run toLowerCase [respA, respB] w).appState.selectedFile = some B ∧
      (run toLowerCase [respA, respB] w).appState.vulnerabilities = LB) ∧
    ((run toLowerCase [respB] w).appState.selectedFile = some B ∧
      (run toLowerCase [respB] w).appState.vulnerabilities = LB) ∧
    ((run toLowerCase [respB, respA] w).appState.selectedFile = some A ∧
      (run toLowerCase [respB, respA] w).appState.vulnerabilities = LA) := by
  intro w0 w respA respB
  have hwf : w0.WellFormed := run_wellFormed toLowerCase es _ (init_wellFormed v)
  have hw : w = { w0 with
      pending := w0.pending ++ [(w0.nextId, Request.vulnerabilities A),
        (w0.nextId + 1, Request.vulnerabilities B)]
      nextId := w0.nextId + 1 + 1 } := by
    simp [w, run, step_call_fetchVulnerabilities, hsentA, hsentB]
  have hA : w.pending.lookup w0.nextId = some (Request.vulnerabilities A) := by
    rw [hw]
    exact lookup_append_fresh _ _ _ _ hwf.1
  have hB : w.pending.lookup (w0.nextId + 1) = some (Request.vulnerabilities B) := by
    rw [hw]
    have : w0.pending ++ [(w0.nextId, Request.vulnerabilities A),
        (w0.nextId + 1, Request.vulnerabilities B)]
        = (w0.pending ++ [(w0.nextId, Request.vulnerabilities A)])
          ++ (w0.nextId + 1, Request.vulnerabilities B) :: [] := by simp
    simp only [this]
    apply lookup_append_fresh
    intro p hp
    simp only [List.mem_append, List.mem_singleton] at hp
    rcases hp with hp | hp
    · exact Nat.lt_succ_of_lt (hwf.1 p hp)
    · rw [hp]; exact Nat.lt_succ_self _
  have hA2 : ((step toLowerCase respB w).pending).lookup w0.nextId
      = some (Request.vulnerabilities A) := by
    rw [step_vulnerabilities_ok toLowerCase w _ B LB hB]
    simp only [lookup_filter_ne _ _ _ (Nat.ne_of_lt (Nat.lt_succ_self w0.nextId))]
    exact hA
  have hB2 : ((step toLowerCase respA w).pending).lookup (w0.nextId + 1)
      = some (Request.vulnerabilities B) := by
    rw [step_vulnerabilities_ok toLowerCase w _ A LA hA]
    simp only [lookup_filter_ne _ _ _ (Nat.ne_of_gt (Nat.lt_succ_self w0.nextId))]
    exact hB
  refine ⟨?_, ?_, ?_⟩
  · have : run toLowerCase [respA, respB] w
        = step toLowerCase respB (step toLowerCase respA w) := rfl
    rw [this, step_vulnerabilities_ok toLowerCase _ _ B LB hB2]
    exact ⟨rfl, rfl⟩
  · have : run toLowerCase [respB] w = step toLowerCase respB w := rfl
    rw [this, step_vulnerabilities_ok toLowerCase _ _ B LB hB]
    exact ⟨rfl, rfl⟩
  · have : run toLowerCase [respB, respA] w
        = step toLowerCase respA (step toLowerCase respB w) := rfl
    rw [this, step_vulnerabilities_ok toLowerCase _ _ A LA hA2]
    exact ⟨rfl, rfl⟩

/-- Witness of C4, amended: from the page as loaded, with `a.php` selected and
then `b.php`, both requests are sent; the store ends on `b.php` when its
response settles last, and on `a.php` when the response for `a.php` settles
last. -/
theorem last_settled_response_wins_witness :
    isWellFormed fileA = true ∧ isWellFormed fileB = true ∧
    (run asciiLower
        [Event.response 0 (Response.vulnerabilities (Outcome.ok findingsA)),
         Event.response 1 (Response.vulnerabilities (Outcome.ok findingsB))]
        (run asciiLower
          [Event.call (Call.fetchVulnerabilities fileA),
           Event.call (Call.fetchVulnerabilities fileB)]
          (World.init {}))).appState.selectedFile = some fileB ∧
    (run asciiLower
        [Event.response 1 (Response.vulnerabilities (Outcome.ok findingsB)),
         Event.response 0 (Response.vulnerabilities (Outcome.ok findingsA))]
        (run asciiLower
          [Event.call (Call.fetchVulnerabilities fileA),
           Event.call (Call.fetchVulnerabilities fileB)]
          (World.init {}))).appState.selectedFile = some fileA :=
  ⟨by decide, by decide,
   (last_settled_response_wins asciiLower {} [] fileA fileB findingsA findingsB
      (by decide) (by decide)).1.1,
   (last_settled_response_wins asciiLower {} [] fileA fileB findingsA findingsB
      (by decide) (by decide)).2.2.1⟩

/-- C8. In every world reachable from the initial store by any sequence of
events (calls of the operations, user actions, responses, timers), the store
is either the initial pair (no selection, empty list) or the pair written by
one response: the list `data` that the server returned to a
`fetchVulnerabilities(fileName)` request, together with that `fileName`. And
in every step the two fields are either both left as they were or both
written, by such a response, in that one step. -/
theorem selection_matches_findings (toLowerCase : JSString → JSString) (v : View)
    (es : List Event) :
    ((run toLowerCase es (World.init v)).appState.selectedFile = none ∧
        (run toLowerCase es (World.init v)).appState.vulnerabilities = [] ∨
      ∃ pre post id fileName data,
        es = pre ++ Event.response id (Response.vulnerabilities (Outcome.ok data)) :: post ∧
        (run toLowerCase pre (World.init v)).pending.lookup id
          = some (Request.vulnerabilities fileName) ∧
        (run toLowerCase es (World.init v)).appState.selectedFile = some fileName ∧
        (run toLowerCase es (World.init v)).appState.vulnerabilities = data) ∧
    (∀ (w : World) (e : Event),
      ((step toLowerCase e w).appState.selectedFile = w.appState.selectedFile ∧
        (step toLowerCase e w).appState.vulnerabilities = w.appState.vulnerabilities) ∨
      ∃ id fileName data,
        e = Event.response id (Response.vulnerabilities (Outcome.ok data)) ∧
        w.pending.lookup id = some (Request.vulnerabilities fileName) ∧
        (step toLowerCase e w).appState.selectedFile = some fileName ∧
        (step toLowerCase e w).appState.vulnerabilities = data) := by
  have hstep : ∀ (w : World) (e : Event),
      ((step toLowerCase e w).appState.selectedFile = w.appState.selectedFile ∧
        (step toLowerCase e w).appState.vulnerabilities = w.appState.vulnerabilities) ∨
      ∃ id fileName data,
        e = Event.response id (Response.vulnerabilities (Outcome.ok data)) ∧
        w.pending.lookup id = some (Request.vulnerabilities fileName) ∧
        (step toLowerCase e w).appState.selectedFile = some fileName ∧
        (step toLowerCase e w).appState.vulnerabilities = data := by
    intro w e
    rcases step_respects_or sameSelection_stable toLowerCase e w with
      h | ⟨id, fileName, data, he, hl, hs⟩
    · exact Or.inl h
    · refine Or.inr ⟨id, fileName, data, he, hl, ?_, ?_⟩
      · rw [hs, fetchVulnerabilitiesResumed_ok]
      · rw [hs, fetchVulnerabilitiesResumed_ok]
  refine ⟨?_, hstep⟩
  induction es using List.reverseRecOn with
  | nil => exact Or.inl ⟨rfl, rfl⟩
  | append_singleton es e ih =>
    rw [run_snoc]
    rcases hstep (run toLowerCase es (World.init v)) e with
      ⟨h1, h2⟩ | ⟨id, fileName, data, he, hl, h1, h2⟩
    · rcases ih with ⟨i1, i2⟩ | ⟨pre, post, id, fileName, data, hes, hl, i1, i2⟩
      · exact Or.inl ⟨h1.trans i1, h2.trans i2⟩
      · refine Or.inr ⟨pre, post ++ [e], id, fileName, data, ?_, hl, h1.trans i1, h2.trans i2⟩
        rw [hes]
        simp
    · refine Or.inr ⟨es, [], id, fileName, data, ?_, hl, h1, h2⟩
      rw [he]

/-! ## Claims about deleting and scanning -/

/-- C5, what the code does. After a confirmed `deleteVulnerabilityReport(guid)`:
when the server answers `{success: false}` the operation completes and the
world is exactly as before, so the store is unchanged, no request is sent and
the modal stays as it is, and no alert is raised either; when the request
fails in transport the store, the requests in flight and the view are
unchanged and the only effects are the console message and the alert
"Error deleting vulnerability report.". -/
theorem deleteVulnerabilityReport_refusal_is_silent (w : World) :
    (deleteVulnerabilityReportResumed (Outcome.ok { success := false })).run w
      = (Except.ok (), w) ∧
    (deleteVulnerabilityReportResumed Outcome.networkError).run w
      = (Except.ok (), { w with effects := w.effects ++
          [Effect.consoleError (js "Error deleting vulnerability report:"),
           Effect.alert (js "Error deleting vulnerability report.")] }) ∧
    (deleteVulnerabilityReportResumed Outcome.parseError).run w
      = (Except.ok (), { w with effects := w.effects ++
          [Effect.consoleError (js "Error deleting vulnerability report:"),
           Effect.alert (js "Error deleting vulnerability report.")] }) := by
  simp [JS.run, deleteVulnerabilityReportResumed, tryCatch, await, emit, JS.bind_apply,
    JS.pure_apply]

theorem step_call_scanDirectory (toLowerCase : JSString → JSString) (w : World)
    (directoryPath : JSString) :
    step toLowerCase (Event.call (Call.scanDirectory directoryPath)) w =
      { w with
        view := updateProgress 10 (js "Starting directory scan...") (showProgress true w.view)
        pending := w.pending ++ [(w.nextId, Request.scanDirectory directoryPath)]
        nextId := w.nextId + 1 } := rfl

theorem step_scanDirectory_ok (toLowerCase : JSString → JSString) (w : World) (id : Nat)
    (directoryPath : JSString) (data : ScanDirectoryResult)
    (h : w.pending.lookup id = some (Request.scanDirectory directoryPath)) :
    step toLowerCase (Event.response id (Response.scanDirectory (Outcome.ok data))) w =
      { w with
        pending := w.pending.filter (fun p => p.1 != id)
        view := updateProgress 100 (js "Directory scan complete!") w.view
        timers := w.timers ++ [(w.nextId, TimerCallback.scanDirectoryDone (scannedCountOf data))]
        nextId := w.nextId + 1 } := by
  simp only [step, handle, deliver, h, resume]
  cases hd : data.scannedFiles <;>
    simp [scanDirectoryResumed, tryCatch, await, JS.bind_apply, JS.pure_apply, modifyView,
      setTimeout, scannedCountOf, hd]

theorem step_timeout (toLowerCase : JSString → JSString) (w : World) (id : Nat)
    (cb : TimerCallback) (h : w.timers.lookup id = some cb) :
    step toLowerCase (Event.timeout id) w =
      (runTimer cb { w with timers := w.timers.filter (fun p => p.1 != id) }).2 := by
  simp only [step, handle, fire, h]

/-- C6. In every reachable world: when `scanDirectory` is called, its response
parses, and the timer it arms fires, the one effect of the three steps is the
alert "Directory scan completed. Scanned N files.", where N is the decimal
numeral of the number of elements of `scannedFiles`, and of 0 when the
response has no such field. For two elements the message is
"Directory scan completed. Scanned 2 files.", which contains
"Scanned 2 files."; without the field it is the one with "Scanned 0 files.". -/
theorem scanDirectory_reports_count (toLowerCase : JSString → JSString) (v : View)
    (es : List Event) (directoryPath : JSString) (data : ScanDirectoryResult) :
    let w0 := run toLowerCase es (World.init v)
    (run toLowerCase
        [Event.call (Call.scanDirectory directoryPath),
         Event.response w0.nextId (Response.scanDirectory (Outcome.ok data)),
         Event.timeout (w0.nextId + 1)] w0).effects
      = w0.effects ++ [Effect.alert (js "Directory scan completed. Scanned "
          ++ numberToString (scannedCountOf data) ++ js " files.")] ∧
    (∀ scannedFiles : JSArray JSString,
      (scannedCountOf { scannedFiles := some scannedFiles }).val = scannedFiles.val.length) ∧
    scannedCountOf { scannedFiles := none } = 0 ∧
    readDecimal (numberToString (scannedCountOf data)) = some (scannedCountOf data).val ∧
    js "Directory scan completed. Scanned "
        ++ numberToString
          (scannedCountOf { scannedFiles := some ⟨[js "a.php", js "b.php"], by decide⟩ })
        ++ js " files." = js "Directory scan completed. Scanned 2 files." ∧
    js "Scanned 2 files." <:+: js "Directory scan completed. Scanned 2 files." ∧
    js "Directory scan completed. Scanned "
        ++ numberToString (scannedCountOf { scannedFiles := none })
        ++ js " files." = js "Directory scan completed. Scanned 0 files." ∧
    js "Scanned 0 files." <:+: js "Directory scan completed. Scanned 0 files." := by
  intro w0
  have hwf : w0.WellFormed := run_wellFormed toLowerCase es _ (init_wellFormed v)
  refine ⟨?_, fun _ => rfl, rfl, readDecimal_numberToString _, by decide, ?_, by decide, ?_⟩
  · have h1 : (step toLowerCase (Event.call (Call.scanDirectory directoryPath)) w0).pending.lookup
        w0.nextId = some (Request.scanDirectory directoryPath) := by
      rw [step_call_scanDirectory]
      exact lookup_append_fresh _ [] _ _ hwf.1
    have h2 : (w0.timers ++ [(w0.nextId + 1,
        TimerCallback.scanDirectoryDone (scannedCountOf data))]).lookup (w0.nextId + 1)
        = some (TimerCallback.scanDirectoryDone (scannedCountOf data)) :=
      lookup_append_fresh _ [] _ _ (fun p hp => Nat.lt_succ_of_lt (hwf.2 p hp))
    have hrun : run toLowerCase
        [Event.call (Call.scanDirectory directoryPath),
         Event.response w0.nextId (Response.scanDirectory (Outcome.ok data)),
         Event.timeout (w0.nextId + 1)] w0
        = step toLowerCase (Event.timeout (w0.nextId + 1))
            (step toLowerCase (Event.response w0.nextId (Response.scanDirectory (Outcome.ok data)))
              (step toLowerCase (Event.call (Call.scanDirectory directoryPath)) w0)) := rfl
    rw [hrun, step_scanDirectory_ok toLowerCase _ _ directoryPath data h1,
      step_timeout toLowerCase _ (w0.nextId + 1)
        (TimerCallback.scanDirectoryDone (scannedCountOf data))
        (by rw [step_call_scanDirectory]; exact h2)]
    simp [runTimer, fetchStatistics, fetchFiles, fetch, modifyView, emit, JS.bind_apply,
      step_call_scanDirectory]
  · exact ⟨js "Directory scan completed. ", [], by decide⟩
  · exact ⟨js "Directory scan completed. ", [], by decide⟩

/-- C7, counterexample. `scanDirectory("/var/www")` is called and its request is
rejected. Afterwards the progress indicator is still shown (the class
`hidden` is not put back), and the effects are the console message and the
reload only: no alert is raised. -/
theorem scanDirectory_failure_neither_hides_nor_alerts :
    (run asciiLower failedDirectoryScan (World.init {})).view.scanProgressHidden = false ∧
    (run asciiLower failedDirectoryScan (World.init {})).effects
      = [Effect.consoleError (js "Error scanning directory:"), Effect.reload] := by
  decide

/-- C7, amended. When the fetch of a scan is rejected or the body of its
response does not parse (the failures the code detects; a response whose body
parses resumes the completion path whatever its status): `scanFile` completes
with the progress at "0%", the status "Scan failed", the indicator hidden, and
the console message followed by the alert as its only effects;
`scanDirectory` completes with the progress at "100%" and the neutral status
"Working". On a parsed body both go on to "100%" with their completion
message and arm the timer, with no effect yet. -/
theorem scan_failure_handling (w : World) :
    (scanFileResumed Outcome.networkError).run w = (scanFileResumed Outcome.parseError).run w ∧
    (scanFileResumed Outcome.networkError).run w
      = (Except.ok (), { w with
          view := { w.view with
            progressBarFillWidth := js "0%"
            scanStatusText := js "Scan failed"
            scanProgressHidden := true }
          effects := w.effects ++
            [Effect.consoleError (js "Error scanning file:"),
             Effect.alert
              (js "Error scanning file. Please check that the file exists and is accessible.")] }) ∧
    (scanDirectoryResumed Outcome.networkError).run w
      = (scanDirectoryResumed Outcome.parseError).run w ∧
    ((scanDirectoryResumed Outcome.networkError).run w).1 = Except.ok () ∧
    ((scanDirectoryResumed Outcome.networkError).run w).2.view.progressBarFillWidth
      = js "100%" ∧
    ((scanDirectoryResumed Outcome.networkError).run w).2.view.scanStatusText = js "Working" ∧
    (scanFileResumed (Outcome.ok ())).run w
      = (Except.ok (), { w with
          view := { w.view with
            progressBarFillWidth := js "100%"
            scanStatusText := js "Scan complete!" }
          timers := w.timers ++ [(w.nextId, TimerCallback.scanFileDone)]
          nextId := w.nextId + 1 }) ∧
    (∀ data : ScanDirectoryResult, (scanDirectoryResumed (Outcome.ok data)).run w
      = (Except.ok (), { w with
          view := { w.view with
            progressBarFillWidth := js "100%"
            scanStatusText := js "Directory scan complete!" }
          timers := w.timers ++
            [(w.nextId, TimerCallback.scanDirectoryDone (scannedCountOf data))]
          nextId := w.nextId + 1 })) := by
  have h0 : numberToString 0 ++ js "%" = js "0%" := by decide
  have h100 : numberToString 100 ++ js "%" = js "100%" := by decide
  refine ⟨rfl, ?_, rfl, ?_, ?_, ?_, ?_, ?_⟩
  · simp [JS.run, scanFileResumed, tryCatch, await, emit, modifyView, JS.bind_apply,
      updateProgress, showProgress, h0]
  · simp [JS.run, scanDirectoryResumed, tryCatch, await, emit, modifyView, JS.bind_apply,
      fetchStatistics, fetch]
  · simp [JS.run, scanDirectoryResumed, tryCatch, await, emit, modifyView, JS.bind_apply,
      updateProgress, fetchStatistics, fetch, h100]
  · simp [JS.run, scanDirectoryResumed, tryCatch, await, emit, modifyView, JS.bind_apply,
      updateProgress, fetchStatistics, fetch]
  · simp [JS.run, scanFileResumed, tryCatch, await, modifyView, JS.bind_apply, JS.pure_apply,
      updateProgress, setTimeout, h100]
  · intro data
    simp [JS.run, scanDirectoryResumed, tryCatch, await, modifyView, JS.bind_apply,
      JS.pure_apply, updateProgress, setTimeout, h100]

end Flatline
